import Mathlib
namespace VanilkaStore

/-- Role strings accepted by the beartype-checked
annotation `Literal["user", "assistant"]` on `add_message`. -/
def validRole (role : String) : Bool :=
  role == "user" || role == "assistant"

/-- Error raised at the API boundary when a call violates the declared
parameter types (beartype rejects the call before the body runs). -/
inductive StoreError where
  | roleViolation (role : String)
deriving Repr, DecidableEq

/-- A row of the `messages` table: `id` is the AUTOINCREMENT primary key
(the sequence identifier), `day` abstracts `created_at` at day
granularity. -/
structure Row where
  id : Nat
  user_id : Nat
  role : String
  content : String
  day : Nat
deriving Repr, DecidableEq

/-- A row of the `users` table. -/
structure UserRec where
  user_id : Nat
  username : Option String
  first_seen : Nat
  last_seen : Nat
deriving Repr, DecidableEq

/-- Aggregate snapshot returned by `get_stats`. -/
structure Stats where
  total_users : Nat
  total_messages : Nat
  user_messages : Nat
  active_today : Nat
deriving Repr, DecidableEq

/-- State of the SQLite-backed store. -/
structure SQLiteDialogHistory where
  max_messages : Nat
  users : List UserRec
  messages : List Row
  next_id : Nat
deriving Repr, DecidableEq

/-- Python list slice `l[-k:]` for a nonnegative `k`: for `k = 0` it is
`l[0:]`, the whole list. -/
def pySliceLast (k : Nat) (l : List α) : List α :=
  if k = 0 then l else l.drop (l.length - k)

/-- The last `k` elements of a list (all of it when `k ≥ l.length`). -/
def lastN (k : Nat) (l : List α) : List α :=
  l.drop (l.length - k)

namespace SQLiteDialogHistory

/-- A freshly initialised store: empty tables, AUTOINCREMENT starts at 1. -/
def init (maxMessages : Nat) : SQLiteDialogHistory :=
  { max_messages := maxMessages, users := [], messages := [], next_id := 1 }

/-- Models `upsert_user`: INSERT the record, ON CONFLICT(user_id) DO UPDATE
SET `username = COALESCE(excluded.username, users.username)`,
`last_seen` set to the current time. -/
def upsert_user (s : SQLiteDialogHistory) (now uid : Nat)
    (username : Option String) : SQLiteDialogHistory :=
  if s.users.any (fun u => u.user_id == uid) then
    { s with users := s.users.map (fun u =>
        if u.user_id == uid then
          { u with
            username := match username with
              | some v => some v
              | none => u.username,
            last_seen := now }
        else u) }
  else
    { s with users := s.users ++
        [{ user_id := uid, username := username, first_seen := now, last_seen := now }] }

/-- The trim subquery of `add_message`:
`SELECT id FROM messages WHERE user_id = ? ORDER BY id DESC LIMIT maxM`,
evaluated on the table after the insert. -/
def topIds (maxM uid : Nat) (tbl : List Row) : List Nat :=
  (((tbl.filter (fun r => r.user_id == uid)).map (fun r => r.id)).insertionSort
    (fun a b => b ≤ a)).take maxM

/-- Models `add_message`: INSERT the message with the next sequence id,
then DELETE every row of this user whose id is NOT IN the result of
the trim subquery. -/
def add_message (s : SQLiteDialogHistory) (day uid : Nat)
    (role content : String) : SQLiteDialogHistory :=
  let inserted := s.messages ++
    [{ id := s.next_id, user_id := uid, role := role, content := content, day := day }]
  let kept := topIds s.max_messages uid inserted
  { s with
    messages := inserted.filter (fun m => m.user_id != uid || kept.contains m.id),
    next_id := s.next_id + 1 }

/-- The rows of one user, in table order (`WHERE user_id = ?`). -/
def userRows (s : SQLiteDialogHistory) (uid : Nat) : List Row :=
  s.messages.filter (fun m => m.user_id == uid)

/-- Models `get_history`:
`SELECT role, content FROM messages WHERE user_id = ? ORDER BY id ASC`,
returned as (role, content) pairs. -/
def get_history (s : SQLiteDialogHistory) (uid : Nat) : List (String × String) :=
  ((s.userRows uid).insertionSort (fun a b => a.id ≤ b.id)).map
    (fun m => (m.role, m.content))

/-- Models `clear`: `DELETE FROM messages WHERE user_id = ?`. -/
def clear (s : SQLiteDialogHistory) (uid : Nat) : SQLiteDialogHistory :=
  { s with messages := s.messages.filter (fun m => m.user_id != uid) }

/-- Models `get_message_count`:
`SELECT COUNT(*) FROM messages WHERE user_id = ?`. -/
def get_message_count (s : SQLiteDialogHistory) (uid : Nat) : Nat :=
  (s.userRows uid).length

/-- Models `get_all_user_ids`: `SELECT user_id FROM users`. -/
def get_all_user_ids (s : SQLiteDialogHistory) : List Nat :=
  s.users.map (fun u => u.user_id)

/-- Models `get_stats`: the four aggregate queries; the daily-active
query compares `created_at` with the current date and keeps exactly the
rows whose day is at least `today`. -/
def get_stats (s : SQLiteDialogHistory) (today : Nat) : Stats :=
  { total_users := s.users.length,
    total_messages := s.messages.length,
    user_messages := (s.messages.filter (fun m => m.role == "user")).length,
    active_today :=
      ((s.messages.filter (fun m => decide (today ≤ m.day))).map
        (fun m => m.user_id)).dedup.length }

/-- The beartype-checked entry point of `add_message`: a role outside the
`Literal` pair is rejected before the body runs. -/
def add_message_checked (s : SQLiteDialogHistory) (day uid : Nat)
    (role content : String) : Except StoreError SQLiteDialogHistory :=
  if validRole role then Except.ok (s.add_message day uid role content)
  else Except.error (StoreError.roleViolation role)

/-- Models `find the user row`: lookup of a user record by id. -/
def lookup_user (s : SQLiteDialogHistory) (uid : Nat) : Option UserRec :=
  s.users.find? (fun u => u.user_id == uid)

/-- Well-formedness of a store state: sequence ids are strictly
increasing in table order and below the AUTOINCREMENT counter.  It
holds in every reachable state. -/
def WF (s : SQLiteDialogHistory) : Prop :=
  s.messages.Pairwise (fun a b => a.id < b.id) ∧ ∀ m ∈ s.messages, m.id < s.next_id

instance (s : SQLiteDialogHistory) : Decidable s.WF := by
  unfold WF; infer_instance

end SQLiteDialogHistory

/-- A message of the in-memory `DialogHistory`. -/
structure Message where
  role : String
  content : String
deriving Repr, DecidableEq

/-- State of the in-memory store: `history` models the
`defaultdict(list)` mapping user id to message list. -/
structure DialogHistory where
  max_messages : Nat
  history : Nat → List Message

namespace DialogHistory

/-- A freshly constructed in-memory store. -/
def init (maxMessages : Nat) : DialogHistory :=
  { max_messages := maxMessages, history := fun _ => [] }

/-- Models the in-memory `add_message`: append, then if the list exceeds
`max_messages` keep the Python slice `messages[-max_messages:]`. -/
def add_message (m : DialogHistory) (uid : Nat) (role content : String) :
    DialogHistory :=
  let messages := m.history uid ++ [{ role := role, content := content }]
  let trimmed :=
    if m.max_messages < messages.length then pySliceLast m.max_messages messages
    else messages
  { m with history := fun u => if u = uid then trimmed else m.history u }

/-- Models the in-memory `get_history`, as (role, content) pairs. -/
def get_history (m : DialogHistory) (uid : Nat) : List (String × String) :=
  (m.history uid).map (fun msg => (msg.role, msg.content))

/-- Models the in-memory `clear`: the list of the user is replaced by `[]`. -/
def clear (m : DialogHistory) (uid : Nat) : DialogHistory :=
  { m with history := fun u => if u = uid then [] else m.history u }

/-- Models the in-memory `get_message_count`. -/
def get_message_count (m : DialogHistory) (uid : Nat) : Nat :=
  (m.history uid).length

/-- The beartype-checked entry point of the in-memory `add_message`. -/
def add_message_checked (m : DialogHistory) (uid : Nat)
    (role content : String) : Except StoreError DialogHistory :=
  if validRole role then Except.ok (m.add_message uid role content)
  else Except.error (StoreError.roleViolation role)

end DialogHistory

/-- One mutating call of the shared core interface. -/
inductive Op where
  | add (day uid : Nat) (role content : String)
  | clearOp (uid : Nat)
deriving Repr, DecidableEq

/-- Run a list of mutating calls against the SQLite store. -/
def SQLiteDialogHistory.runOps (s : SQLiteDialogHistory) :
    List Op → SQLiteDialogHistory
  | [] => s
  | Op.add day uid role content :: ops => (s.add_message day uid role content).runOps ops
  | Op.clearOp uid :: ops => (s.clear uid).runOps ops

/-- Run a list of mutating calls against the in-memory store (the
timestamp argument is ignored there). -/
def DialogHistory.runOps (m : DialogHistory) : List Op → DialogHistory
  | [] => m
  | Op.add _ uid role content :: ops => (m.add_message uid role content).runOps ops
  | Op.clearOp uid :: ops => (m.clear uid).runOps ops

end VanilkaStore

namespace VanilkaStore

theorem map_lastN (f : α → β) (k : Nat) (l : List α) :
    (lastN k l).map f = lastN k (l.map f) := by
  unfold lastN
  rw [List.map_drop, List.length_map]

theorem length_lastN_le (k : Nat) (l : List α) : (lastN k l).length ≤ k := by
  unfold lastN
  rw [List.length_drop]
  omega

theorem lastN_of_length_le (k : Nat) (l : List α) (h : l.length ≤ k) : lastN k l = l := by
  unfold lastN
  rw [Nat.sub_eq_zero_of_le h, List.drop_zero]

theorem insertionSort_desc_eq_reverse {l : List Nat} (h : l.Pairwise (fun a b => a < b)) :
    l.insertionSort (fun a b => b ≤ a) = l.reverse := by
  haveI : IsTotal Nat (fun a b => b ≤ a) := ⟨fun a b => Nat.le_total b a⟩
  haveI : IsTrans Nat (fun a b => b ≤ a) := ⟨fun a b c h1 h2 => Nat.le_trans h2 h1⟩
  haveI : IsAntisymm Nat (fun a b => b ≤ a) := ⟨fun a b h1 h2 => Nat.le_antisymm h2 h1⟩
  have hp : List.Perm (l.insertionSort (fun a b => b ≤ a)) l.reverse :=
    (List.perm_insertionSort _ l).trans l.reverse_perm.symm
  have hs1 : List.Sorted (fun a b => b ≤ a) (l.insertionSort (fun a b => b ≤ a)) :=
    List.sorted_insertionSort _ l
  have hs2 : List.Sorted (fun a b => b ≤ a) l.reverse :=
    List.pairwise_reverse.mpr (h.imp fun hab => Nat.le_of_lt hab)
  exact List.eq_of_perm_of_sorted hp hs1 hs2

theorem take_reverse_eq_reverse_lastN (k : Nat) (l : List α) :
    l.reverse.take k = (lastN k l).reverse := by
  have h := List.rtake_eq_reverse_take_reverse l k
  unfold lastN
  rw [List.rtake] at h
  rw [h, List.reverse_reverse]

namespace SQLiteDialogHistory

theorem userRows_pairwise {s : SQLiteDialogHistory} (h : s.WF) (uid : Nat) :
    (s.userRows uid).Pairwise (fun a b => a.id < b.id) :=
  h.1.sublist (List.filter_sublist _)

theorem topIds_eq (maxM uid : Nat) {tbl : List Row}
    (h : tbl.Pairwise (fun a b => a.id < b.id)) :
    topIds maxM uid tbl
      = ((lastN maxM (tbl.filter (fun r => r.user_id == uid))).map (fun r => r.id)).reverse := by
  unfold topIds
  have hpw : ((tbl.filter (fun r => r.user_id == uid)).map (fun r => r.id)).Pairwise
      (fun a b => a < b) := by
    rw [List.pairwise_map]
    exact (h.sublist (List.filter_sublist _))
  rw [insertionSort_desc_eq_reverse hpw, take_reverse_eq_reverse_lastN,
    map_lastN]


theorem filter_contains_of_disjoint (t d : List Row)
    (hdisj : ∀ x ∈ t, x.id ∉ d.map (fun r => r.id)) :
    (t ++ d).filter (fun r => (d.map (fun r => r.id)).contains r.id) = d := by
  rw [List.filter_append]
  have ht : t.filter (fun r => (d.map (fun r => r.id)).contains r.id) = [] := by
    rw [List.filter_eq_nil_iff]
    intro a ha
    simp only [List.contains, List.elem_eq_mem, decide_eq_true_eq]
    exact hdisj a ha
  have hd : d.filter (fun r => (d.map (fun r => r.id)).contains r.id) = d := by
    rw [List.filter_eq_self]
    intro a ha
    simp only [List.contains, List.elem_eq_mem, decide_eq_true_eq]
    exact List.mem_map_of_mem _ ha
  rw [ht, hd, List.nil_append]

theorem filter_contains_reverse (L : List Row) (ids : List Nat) :
    L.filter (fun r => ids.reverse.contains r.id) = L.filter (fun r => ids.contains r.id) := by
  apply List.filter_congr
  intro a _
  simp [List.contains, List.elem_eq_mem, List.mem_reverse]

theorem filter_contains_lastN (L : List Row) (k : Nat)
    (hnd : (L.map (fun r => r.id)).Nodup) :
    L.filter (fun r => ((lastN k L).map (fun r => r.id)).contains r.id) = lastN k L := by
  have hsplit : (L.take (L.length - k)).map (fun r => r.id) ++
      (L.drop (L.length - k)).map (fun r => r.id) = L.map (fun r => r.id) := by
    rw [← List.map_append, List.take_append_drop]
  have hdisj : ∀ x ∈ L.take (L.length - k),
      x.id ∉ (L.drop (L.length - k)).map (fun r => r.id) := by
    intro x hx
    have hnd2 := hnd
    rw [← hsplit] at hnd2
    exact (List.nodup_append.mp hnd2).2.2 (List.mem_map_of_mem _ hx)
  have key := filter_contains_of_disjoint (L.take (L.length - k))
    (L.drop (L.length - k)) hdisj
  rw [List.take_append_drop] at key
  exact key

theorem append_pairwise {l : List Row} (hp : l.Pairwise (fun a b => a.id < b.id))
    {nr : Row} (hlt : ∀ m ∈ l, m.id < nr.id) :
    (l ++ [nr]).Pairwise (fun a b => a.id < b.id) := by
  rw [List.pairwise_append]
  refine ⟨hp, List.pairwise_singleton _ _, ?_⟩
  intro a ha b hb
  rw [List.mem_singleton] at hb
  subst hb
  exact hlt a ha

theorem userRows_add_self (s : SQLiteDialogHistory) (h : s.WF) (day uid : Nat)
    (role content : String) :
    (s.add_message day uid role content).userRows uid
      = lastN s.max_messages (s.userRows uid ++
          [{ id := s.next_id, user_id := uid, role := role, content := content, day := day }]) := by
  have hins : (s.messages ++
      [({ id := s.next_id, user_id := uid, role := role, content := content,
          day := day } : Row)]).Pairwise (fun a b => a.id < b.id) :=
    append_pairwise h.1 (fun m hm => h.2 m hm)
  have hurows : (s.messages ++
      [({ id := s.next_id, user_id := uid, role := role, content := content,
          day := day } : Row)]).filter (fun m => m.user_id == uid)
      = s.messages.filter (fun m => m.user_id == uid) ++
          [{ id := s.next_id, user_id := uid, role := role, content := content, day := day }] := by
    rw [List.filter_append]
    congr 1
    simp
  have hk := topIds_eq s.max_messages uid hins
  rw [hurows] at hk
  simp only [add_message, userRows]
  rw [List.filter_filter]
  have hc1 : ∀ m ∈ s.messages ++
      [({ id := s.next_id, user_id := uid, role := role, content := content,
          day := day } : Row)],
      ((m.user_id == uid) &&
        ((m.user_id != uid) ||
          (topIds s.max_messages uid (s.messages ++
            [{ id := s.next_id, user_id := uid, role := role, content := content,
               day := day }])).contains m.id))
        = (((topIds s.max_messages uid (s.messages ++
            [{ id := s.next_id, user_id := uid, role := role, content := content,
               day := day }])).contains m.id) && (m.user_id == uid)) := by
    intro m _
    cases hq : (m.user_id == uid) <;> simp [bne, hq]
  rw [List.filter_congr hc1, ← List.filter_filter, hurows, hk,
    filter_contains_reverse]
  apply filter_contains_lastN
  have hpw : (s.messages.filter (fun m => m.user_id == uid) ++
      [({ id := s.next_id, user_id := uid, role := role, content := content,
          day := day } : Row)]).Pairwise (fun a b => a.id < b.id) := by
    rw [← hurows]
    exact hins.sublist (List.filter_sublist _)
  exact List.pairwise_map.mpr (hpw.imp fun hab => Nat.ne_of_lt hab)

theorem userRows_add_ne (s : SQLiteDialogHistory) (day uid : Nat)
    (role content : String) (v : Nat) (hne : v ≠ uid) :
    (s.add_message day uid role content).userRows v = s.userRows v := by
  simp only [add_message, userRows]
  rw [List.filter_filter]
  have hc : ∀ m ∈ s.messages ++
      [({ id := s.next_id, user_id := uid, role := role, content := content,
          day := day } : Row)],
      ((m.user_id == v) &&
        ((m.user_id != uid) ||
          (topIds s.max_messages uid (s.messages ++
            [{ id := s.next_id, user_id := uid, role := role, content := content,
               day := day }])).contains m.id))
        = (m.user_id == v) := by
    intro m _
    cases hq : (m.user_id == v)
    · simp
    · have hv : m.user_id = v := by simpa using hq
      have : (m.user_id != uid) = true := by
        simp [bne, hv]
        exact hne
      simp [hq, this]
  rw [List.filter_congr hc, List.filter_append]
  have : List.filter (fun m => m.user_id == v)
      [({ id := s.next_id, user_id := uid, role := role, content := content,
          day := day } : Row)] = [] := by
    simp
    exact fun hx => absurd hx.symm hne
  rw [this, List.append_nil]

theorem add_message_WF {s : SQLiteDialogHistory} (h : s.WF) (day uid : Nat)
    (role content : String) :
    (s.add_message day uid role content).WF := by
  have hins : (s.messages ++
      [({ id := s.next_id, user_id := uid, role := role, content := content,
          day := day } : Row)]).Pairwise (fun a b => a.id < b.id) :=
    append_pairwise h.1 (fun m hm => h.2 m hm)
  constructor
  · exact hins.sublist (List.filter_sublist _)
  · intro m hm
    have hm2 : m ∈ s.messages ++
        [({ id := s.next_id, user_id := uid, role := role, content := content,
            day := day } : Row)] := List.mem_of_mem_filter hm
    show m.id < s.next_id + 1
    rcases List.mem_append.mp hm2 with h1 | h1
    · exact Nat.lt_succ_of_lt (h.2 m h1)
    · rw [List.mem_singleton] at h1
      subst h1
      exact Nat.lt_succ_self _

theorem add_message_max (s : SQLiteDialogHistory) (day uid : Nat) (role content : String) :
    (s.add_message day uid role content).max_messages = s.max_messages := rfl

theorem clear_WF {s : SQLiteDialogHistory} (h : s.WF) (uid : Nat) :
    (s.clear uid).WF :=
  ⟨h.1.sublist (List.filter_sublist _), fun m hm => h.2 m (List.mem_of_mem_filter hm)⟩

theorem userRows_clear_self (s : SQLiteDialogHistory) (uid : Nat) :
    (s.clear uid).userRows uid = [] := by
  simp only [clear, userRows]
  rw [List.filter_filter, List.filter_eq_nil_iff]
  intro a _
  cases hq : (a.user_id == uid) <;> simp [bne, hq]

theorem userRows_clear_ne (s : SQLiteDialogHistory) (uid v : Nat) (hne : v ≠ uid) :
    (s.clear uid).userRows v = s.userRows v := by
  simp only [clear, userRows]
  rw [List.filter_filter]
  apply List.filter_congr
  intro a _
  cases hq : (a.user_id == v)
  · simp
  · have hv : a.user_id = v := by simpa using hq
    have : (a.user_id != uid) = true := by
      simp [bne, hv]
      exact hne
    simp [hq, this]

theorem get_history_eq_userRows {s : SQLiteDialogHistory} (h : s.WF) (uid : Nat) :
    s.get_history uid = (s.userRows uid).map (fun m => (m.role, m.content)) := by
  unfold get_history
  congr 1
  apply List.Sorted.insertionSort_eq
  exact (userRows_pairwise h uid).imp fun hab => Nat.le_of_lt hab

theorem get_message_count_eq (s : SQLiteDialogHistory) (uid : Nat) :
    s.get_message_count uid = (s.userRows uid).length := rfl

end SQLiteDialogHistory

namespace DialogHistory

theorem add_message_history_self (m : DialogHistory) (hmax : 1 ≤ m.max_messages)
    (uid : Nat) (role content : String) :
    (m.add_message uid role content).history uid
      = lastN m.max_messages (m.history uid ++ [{ role := role, content := content }]) := by
  simp only [add_message, if_pos]
  by_cases hlt : m.max_messages <
      (m.history uid ++ [({ role := role, content := content } : Message)]).length
  · rw [if_pos hlt]
    unfold pySliceLast lastN
    rw [if_neg (by omega)]
  · rw [if_neg hlt]
    rw [lastN_of_length_le _ _ (by omega)]

theorem add_message_history_ne (m : DialogHistory) (uid : Nat) (role content : String)
    (v : Nat) (hne : v ≠ uid) :
    (m.add_message uid role content).history v = m.history v := by
  simp only [add_message, if_neg hne]

theorem add_message_keeps_max (m : DialogHistory) (uid : Nat) (role content : String) :
    (m.add_message uid role content).max_messages = m.max_messages := rfl

theorem clear_history_self (m : DialogHistory) (uid : Nat) :
    (m.clear uid).history uid = [] := by
  simp only [clear, if_pos]

theorem clear_history_ne (m : DialogHistory) (uid v : Nat) (hne : v ≠ uid) :
    (m.clear uid).history v = m.history v := by
  simp only [clear, if_neg hne]

theorem get_history_eq (m : DialogHistory) (uid : Nat) :
    m.get_history uid = (m.history uid).map (fun msg => (msg.role, msg.content)) := rfl

end DialogHistory

theorem pairs_lastN_rows (k : Nat) (l : List Row) :
    (lastN k l).map (fun m => (m.role, m.content))
      = lastN k (l.map (fun m => (m.role, m.content))) :=
  map_lastN _ k l

theorem pairs_lastN_msgs (k : Nat) (l : List Message) :
    (lastN k l).map (fun m => (m.role, m.content))
      = lastN k (l.map (fun m => (m.role, m.content))) :=
  map_lastN _ k l

theorem runOps_sim (ops : List Op) :
    ∀ (s : SQLiteDialogHistory) (m : DialogHistory),
      s.WF → s.max_messages = m.max_messages → 1 ≤ m.max_messages →
      (∀ u, (s.userRows u).map (fun r => (r.role, r.content))
          = (m.history u).map (fun msg => (msg.role, msg.content))) →
      (s.runOps ops).WF
      ∧ (s.runOps ops).max_messages = m.max_messages
      ∧ (m.runOps ops).max_messages = m.max_messages
      ∧ ∀ u, ((s.runOps ops).userRows u).map (fun r => (r.role, r.content))
          = ((m.runOps ops).history u).map (fun msg => (msg.role, msg.content)) := by
  induction ops with
  | nil =>
    intro s m hwf hmax h1 hR
    exact ⟨hwf, hmax, rfl, hR⟩
  | cons op ops ih =>
    intro s m hwf hmax h1 hR
    cases op with
    | add day uid role content =>
      show ((s.add_message day uid role content).runOps ops).WF ∧ _
      refine ih (s.add_message day uid role content) (m.add_message uid role content)
        (SQLiteDialogHistory.add_message_WF hwf day uid role content)
        (by rw [SQLiteDialogHistory.add_message_max, hmax]; rfl) h1 ?_
      intro u
      by_cases hu : u = uid
      · subst hu
        rw [SQLiteDialogHistory.userRows_add_self s hwf day u role content,
          DialogHistory.add_message_history_self m h1 u role content,
          pairs_lastN_rows, pairs_lastN_msgs, List.map_append, List.map_append,
          hmax, hR u]
        rfl
      · rw [SQLiteDialogHistory.userRows_add_ne s day uid role content u hu,
          DialogHistory.add_message_history_ne m uid role content u hu]
        exact hR u
    | clearOp uid =>
      show ((s.clear uid).runOps ops).WF ∧ _
      refine ih (s.clear uid) (m.clear uid)
        (SQLiteDialogHistory.clear_WF hwf uid) hmax h1 ?_
      intro u
      by_cases hu : u = uid
      · subst hu
        rw [SQLiteDialogHistory.userRows_clear_self, DialogHistory.clear_history_self]
        rfl
      · rw [SQLiteDialogHistory.userRows_clear_ne s uid u hu,
          DialogHistory.clear_history_ne m uid u hu]
        exact hR u

theorem runOps_count_le (ops : List Op) :
    ∀ (m : DialogHistory), 1 ≤ m.max_messages →
      (∀ u, (m.history u).length ≤ m.max_messages) →
      (m.runOps ops).max_messages = m.max_messages
      ∧ ∀ u, ((m.runOps ops).history u).length ≤ m.max_messages := by
  induction ops with
  | nil =>
    intro m h1 hb
    exact ⟨rfl, hb⟩
  | cons op ops ih =>
    intro m h1 hb
    cases op with
    | add day uid role content =>
      show (((m.add_message uid role content).runOps ops).max_messages = _) ∧ _
      refine ih (m.add_message uid role content) h1 ?_
      intro u
      by_cases hu : u = uid
      · subst hu
        rw [DialogHistory.add_message_history_self m h1 u role content]
        exact length_lastN_le _ _
      · rw [DialogHistory.add_message_history_ne m uid role content u hu]
        exact hb u
    | clearOp uid =>
      show (((m.clear uid).runOps ops).max_messages = _) ∧ _
      refine ih (m.clear uid) h1 ?_
      intro u
      by_cases hu : u = uid
      · subst hu
        rw [DialogHistory.clear_history_self]
        exact Nat.zero_le _
      · rw [DialogHistory.clear_history_ne m uid u hu]
        exact hb u

theorem init_WF (k : Nat) : (SQLiteDialogHistory.init k).WF := by
  constructor
  · exact List.Pairwise.nil
  · intro m hm
    exact absurd hm (List.not_mem_nil m)

/-- C1 (amended): provided max_messages is at least 1, after every sequence
of mutating calls both stores hold at most max_messages messages per user,
and each add_message keeps exactly the newest window: inserted message plus
previous history, truncated to the last max_messages entries. -/
theorem c1_bounded_window (maxM : Nat) (hmax : 1 ≤ maxM) (ops : List Op) (uid : Nat) :
    ((SQLiteDialogHistory.init maxM).runOps ops).get_message_count uid ≤ maxM
    ∧ ((DialogHistory.init maxM).runOps ops).get_message_count uid ≤ maxM
    ∧ ∀ (s : SQLiteDialogHistory) (day : Nat) (role content : String), s.WF →
        (s.add_message day uid role content).get_history uid
          = lastN s.max_messages (s.get_history uid ++ [(role, content)]) := by
  have hsim := runOps_sim ops (SQLiteDialogHistory.init maxM) (DialogHistory.init maxM)
    (init_WF maxM) rfl hmax (fun u => rfl)
  obtain ⟨hwf, hmax1, hmax2, hR⟩ := hsim
  have hcnt := runOps_count_le ops (DialogHistory.init maxM) hmax
    (fun u => Nat.zero_le _)
  refine ⟨?_, hcnt.2 uid, ?_⟩
  · rw [SQLiteDialogHistory.get_message_count_eq]
    have hlen := congrArg List.length (hR uid)
    rw [List.length_map, List.length_map] at hlen
    rw [hlen]
    exact hcnt.2 uid
  · intro s day role content hswf
    have hwf2 := SQLiteDialogHistory.add_message_WF hswf day uid role content
    rw [SQLiteDialogHistory.get_history_eq_userRows hwf2 uid,
      SQLiteDialogHistory.userRows_add_self s hswf day uid role content,
      pairs_lastN_rows, List.map_append,
      SQLiteDialogHistory.get_history_eq_userRows hswf uid]
    rfl

theorem c1_bounded_window_witness :
    1 ≤ 3
    ∧ ((SQLiteDialogHistory.init 3).runOps
        [Op.add 1 42 "user" "a", Op.add 2 42 "assistant" "b",
         Op.add 3 42 "user" "c", Op.add 4 42 "assistant" "d"]).get_message_count 42 ≤ 3
    ∧ ((DialogHistory.init 3).runOps
        [Op.add 1 42 "user" "a", Op.add 2 42 "assistant" "b",
         Op.add 3 42 "user" "c", Op.add 4 42 "assistant" "d"]).get_message_count 42 ≤ 3
    ∧ (SQLiteDialogHistory.init 3).WF
    ∧ ((SQLiteDialogHistory.init 3).add_message 9 42 "user" "x").get_history 42
        = lastN 3 ((SQLiteDialogHistory.init 3).get_history 42 ++ [("user", "x")]) := by
  have h := c1_bounded_window 3 (by decide)
      [Op.add 1 42 "user" "a", Op.add 2 42 "assistant" "b",
       Op.add 3 42 "user" "c", Op.add 4 42 "assistant" "d"] 42
  exact ⟨by decide, h.1, h.2.1, by decide,
    h.2.2 (SQLiteDialogHistory.init 3) 9 "user" "x" (by decide)⟩

/-- C1 counterexample: with max_messages = 0 the in-memory add_message keeps
every message (the Python slice with k = 0 is the whole list), so the
stored count exceeds the configured maximum. -/
theorem c1_counterexample :
    ¬ (((DialogHistory.init 0).add_message 1 "user" "hi").get_message_count 1
        ≤ (DialogHistory.init 0).max_messages) := by
  decide

/-- C2: a well-formed SQLite store returns, for each user, exactly the
rows of that user in table (insertion) order, whose sequence ids are
strictly increasing. -/
theorem c2_history_ordered (s : SQLiteDialogHistory) (h : s.WF) (uid : Nat) :
    s.get_history uid
      = (s.messages.filter (fun m => m.user_id == uid)).map (fun m => (m.role, m.content))
    ∧ (s.messages.filter (fun m => m.user_id == uid)).Pairwise (fun a b => a.id < b.id) :=
  ⟨SQLiteDialogHistory.get_history_eq_userRows h uid,
   SQLiteDialogHistory.userRows_pairwise h uid⟩

theorem c2_history_ordered_witness :
    (((SQLiteDialogHistory.init 20).add_message 1 7 "user" "a").add_message 2 7
        "assistant" "b").WF
    ∧ (((SQLiteDialogHistory.init 20).add_message 1 7 "user" "a").add_message 2 7
        "assistant" "b").get_history 7 = [("user", "a"), ("assistant", "b")]
    ∧ ((((SQLiteDialogHistory.init 20).add_message 1 7 "user" "a").add_message 2 7
        "assistant" "b").messages.filter (fun m => m.user_id == 7)).Pairwise
          (fun a b => a.id < b.id) := by
  have h := c2_history_ordered
    (((SQLiteDialogHistory.init 20).add_message 1 7 "user" "a").add_message 2 7
      "assistant" "b") (by decide) 7
  exact ⟨by decide, h.1.trans (by decide), h.2⟩

/-- C3: the concrete trim scenario with max_messages = 3 for user 42, on
both implementations. -/
theorem c3_trim_scenario :
    (((((SQLiteDialogHistory.init 3).add_message 1 42 "user" "a").add_message 2 42
        "assistant" "b").add_message 3 42 "user" "c").add_message 4 42
        "assistant" "d").get_history 42
      = [("assistant", "b"), ("user", "c"), ("assistant", "d")]
    ∧ (((((SQLiteDialogHistory.init 3).add_message 1 42 "user" "a").add_message 2 42
        "assistant" "b").add_message 3 42 "user" "c").add_message 4 42
        "assistant" "d").get_message_count 42 = 3
    ∧ (((((DialogHistory.init 3).add_message 42 "user" "a").add_message 42
        "assistant" "b").add_message 42 "user" "c").add_message 42
        "assistant" "d").get_history 42
      = [("assistant", "b"), ("user", "c"), ("assistant", "d")]
    ∧ (((((DialogHistory.init 3).add_message 42 "user" "a").add_message 42
        "assistant" "b").add_message 42 "user" "c").add_message 42
        "assistant" "d").get_message_count 42 = 3 := by
  decide

theorem find?_map_update (f : UserRec → UserRec) (hf : ∀ u, (f u).user_id = u.user_id)
    (uid : Nat) (l : List UserRec) (rec : UserRec)
    (h : l.find? (fun u => u.user_id == uid) = some rec) :
    (l.map (fun u => if u.user_id == uid then f u else u)).find?
      (fun u => u.user_id == uid) = some (f rec) := by
  induction l with
  | nil => simp at h
  | cons a l ih =>
    by_cases ha : (a.user_id == uid) = true
    · rw [List.find?_cons_of_pos (p := fun (u : UserRec) => u.user_id == uid) _ ha] at h
      have hrec : a = rec := by injection h
      subst hrec
      rw [List.map_cons, if_pos ha]
      exact List.find?_cons_of_pos (p := fun (u : UserRec) => u.user_id == uid) _
        (by show ((f a).user_id == uid) = true; rw [hf a]; exact ha)
    · rw [List.find?_cons_of_neg (p := fun (u : UserRec) => u.user_id == uid) _ ha] at h
      rw [List.map_cons, if_neg ha]
      rw [List.find?_cons_of_neg (p := fun (u : UserRec) => u.user_id == uid) _ ha]
      exact ih h

/-- C4 (amended): upsert_user creates the record when absent; when present
it keeps first_seen, sets last_seen to now, and sets username to the
supplied value whenever one is supplied (COALESCE only protects a missing
value, so an empty string does overwrite), keeping the stored name only
when the supplied value is missing. -/
theorem c4_upsert_display_name (s : SQLiteDialogHistory) (now uid : Nat)
    (name : Option String) :
    (s.lookup_user uid = none →
      (s.upsert_user now uid name).users
        = s.users ++
            [{ user_id := uid, username := name, first_seen := now, last_seen := now }])
    ∧ (∀ rec, s.lookup_user uid = some rec →
        (s.upsert_user now uid name).lookup_user uid
          = some { user_id := rec.user_id,
                   username := match name with
                     | some v => some v
                     | none => rec.username,
                   first_seen := rec.first_seen,
                   last_seen := now }) := by
  constructor
  · intro h
    have hnone := List.find?_eq_none.mp h
    have hany : (s.users.any (fun u => u.user_id == uid)) = false := by
      rw [List.any_eq_false]
      exact hnone
    unfold SQLiteDialogHistory.upsert_user
    rw [if_neg (by rw [hany]; exact Bool.false_ne_true)]
  · intro rec hrec
    have hmem := List.mem_of_find?_eq_some hrec
    have hp := List.find?_some hrec
    have hany : (s.users.any (fun u => u.user_id == uid)) = true := by
      rw [List.any_eq_true]
      exact ⟨rec, hmem, hp⟩
    unfold SQLiteDialogHistory.upsert_user SQLiteDialogHistory.lookup_user
    rw [if_pos hany]
    exact find?_map_update
      (fun u => { user_id := u.user_id,
                  username := match name with
                    | some v => some v
                    | none => u.username,
                  first_seen := u.first_seen, last_seen := now })
      (fun u => rfl) uid s.users rec hrec

theorem c4_upsert_display_name_witness :
    ((SQLiteDialogHistory.init 20).lookup_user 5 = none)
    ∧ ((SQLiteDialogHistory.init 20).upsert_user 3 5 (some "bob")).users
        = [{ user_id := 5, username := some "bob", first_seen := 3, last_seen := 3 }]
    ∧ ((((SQLiteDialogHistory.init 20).upsert_user 3 5 (some "bob")).upsert_user 8 5
          none).lookup_user 5
        = some { user_id := 5, username := some "bob", first_seen := 3, last_seen := 8 })
    ∧ ((((SQLiteDialogHistory.init 20).upsert_user 3 5 (some "bob")).upsert_user 9 5
          (some "carol")).lookup_user 5
        = some { user_id := 5, username := some "carol", first_seen := 3, last_seen := 9 }) := by
  refine ⟨by decide, ?_, ?_, ?_⟩
  · exact ((c4_upsert_display_name (SQLiteDialogHistory.init 20) 3 5
      (some "bob")).1 (by decide)).trans (by decide)
  · exact (((c4_upsert_display_name ((SQLiteDialogHistory.init 20).upsert_user 3 5
      (some "bob")) 8 5 none).2)
      { user_id := 5, username := some "bob", first_seen := 3, last_seen := 3 }
      (by decide)).trans (by decide)
  · exact (((c4_upsert_display_name ((SQLiteDialogHistory.init 20).upsert_user 3 5
      (some "bob")) 9 5 (some "carol")).2)
      { user_id := 5, username := some "bob", first_seen := 3, last_seen := 3 }
      (by decide)).trans (by decide)

/-- C4 counterexample: a stored non-empty display name "alice" is
overwritten by a supplied empty display name, because COALESCE only
protects against a missing (NULL) value. -/
theorem c4_counterexample :
    (((SQLiteDialogHistory.init 20).upsert_user 0 1 (some "alice")).lookup_user 1)
      = some { user_id := 1, username := some "alice", first_seen := 0, last_seen := 0 }
    ∧ (((((SQLiteDialogHistory.init 20).upsert_user 0 1 (some "alice")).upsert_user 1 1
        (some "")).lookup_user 1).map (fun u => u.username)) = some (some "")
    ∧ ¬ ((((((SQLiteDialogHistory.init 20).upsert_user 0 1 (some "alice")).upsert_user 1 1
        (some "")).lookup_user 1).map (fun u => u.username)) = some (some "alice")) := by
  decide

/-- C5: clear removes all messages of the user and nothing else, is
total, leaves the user table untouched and is idempotent, on both
implementations. -/
theorem c5_clear_idempotent (s : SQLiteDialogHistory) (m : DialogHistory) (uid : Nat) :
    (s.clear uid).get_history uid = []
    ∧ (s.clear uid).get_message_count uid = 0
    ∧ (s.clear uid).users = s.users
    ∧ (s.clear uid).clear uid = s.clear uid
    ∧ (m.clear uid).get_history uid = []
    ∧ (m.clear uid).get_message_count uid = 0
    ∧ (m.clear uid).clear uid = m.clear uid := by
  refine ⟨?_, ?_, rfl, ?_, ?_, ?_, ?_⟩
  · simp only [SQLiteDialogHistory.get_history, SQLiteDialogHistory.userRows_clear_self]
    rfl
  · simp only [SQLiteDialogHistory.get_message_count_eq,
      SQLiteDialogHistory.userRows_clear_self]
    rfl
  · simp only [SQLiteDialogHistory.clear, List.filter_filter, Bool.and_self]
  · simp only [DialogHistory.get_history, DialogHistory.clear_history_self]
    rfl
  · simp only [DialogHistory.get_message_count, DialogHistory.clear_history_self]
    rfl
  · unfold DialogHistory.clear
    congr 1
    funext u
    by_cases hu : u = uid <;> simp [hu]

/-- C6: an unknown user — one with no stored messages — yields an empty
history and a zero count on both implementations; the queries are total
and never error. -/
theorem c6_not_found (s : SQLiteDialogHistory) (m : DialogHistory) (uid : Nat)
    (hs : ∀ r ∈ s.messages, r.user_id ≠ uid) (hm : m.history uid = []) :
    s.get_history uid = [] ∧ s.get_message_count uid = 0
    ∧ m.get_history uid = [] ∧ m.get_message_count uid = 0 := by
  have hur : s.userRows uid = [] := by
    unfold SQLiteDialogHistory.userRows
    rw [List.filter_eq_nil_iff]
    intro a ha
    simp only [beq_iff_eq]
    exact hs a ha
  refine ⟨?_, ?_, ?_, ?_⟩
  · simp only [SQLiteDialogHistory.get_history, hur]
    rfl
  · simp only [SQLiteDialogHistory.get_message_count_eq, hur]
    rfl
  · simp only [DialogHistory.get_history, hm]
    rfl
  · simp only [DialogHistory.get_message_count, hm]
    rfl

theorem c6_not_found_witness :
    (∀ r ∈ ((SQLiteDialogHistory.init 20).add_message 1 7 "user" "a").messages,
        r.user_id ≠ 9)
    ∧ ((DialogHistory.init 20).add_message 7 "user" "a").history 9 = []
    ∧ ((SQLiteDialogHistory.init 20).add_message 1 7 "user" "a").get_history 9 = []
    ∧ ((SQLiteDialogHistory.init 20).add_message 1 7 "user" "a").get_message_count 9 = 0
    ∧ ((DialogHistory.init 20).add_message 7 "user" "a").get_history 9 = []
    ∧ ((DialogHistory.init 20).add_message 7 "user" "a").get_message_count 9 = 0 := by
  have h := c6_not_found ((SQLiteDialogHistory.init 20).add_message 1 7 "user" "a")
    ((DialogHistory.init 20).add_message 7 "user" "a") 9 (by decide) (by decide)
  exact ⟨by decide, by decide, h.1, h.2.1, h.2.2.1, h.2.2.2⟩

/-- C7: a role outside the enumerated pair is rejected by the
beartype-checked boundary of both implementations before any write: the
call returns an error and no state is produced. -/
theorem c7_role_rejected (s : SQLiteDialogHistory) (m : DialogHistory) (day uid : Nat)
    (role content : String) (h1 : role ≠ "user") (h2 : role ≠ "assistant") :
    s.add_message_checked day uid role content
        = Except.error (StoreError.roleViolation role)
    ∧ m.add_message_checked uid role content
        = Except.error (StoreError.roleViolation role) := by
  have hv : validRole role = false := by
    simp only [validRole, Bool.or_eq_false_iff]
    constructor
    · exact beq_eq_false_iff_ne.mpr h1
    · exact beq_eq_false_iff_ne.mpr h2
  constructor
  · unfold SQLiteDialogHistory.add_message_checked
    rw [if_neg (by rw [hv]; exact Bool.false_ne_true)]
  · unfold DialogHistory.add_message_checked
    rw [if_neg (by rw [hv]; exact Bool.false_ne_true)]

theorem c7_role_rejected_witness :
    ("system" ≠ "user")
    ∧ ("system" ≠ "assistant")
    ∧ (SQLiteDialogHistory.init 20).add_message_checked 1 7 "system" "oops"
        = Except.error (StoreError.roleViolation "system")
    ∧ (DialogHistory.init 20).add_message_checked 7 "system" "oops"
        = Except.error (StoreError.roleViolation "system") := by
  have h := c7_role_rejected (SQLiteDialogHistory.init 20) (DialogHistory.init 20)
    1 7 "system" "oops" (by decide) (by decide)
  exact ⟨by decide, by decide, h.1, h.2⟩

/-- C8: get_stats returns the number of user records (equal to the number
of distinct user ids when the users table is duplicate-free), the total
message count, the count of role-user messages, and — when no message is
dated after today — the number of distinct users with a message created
today. -/
theorem c8_get_stats (s : SQLiteDialogHistory) (today : Nat)
    (hu : (s.users.map (fun u => u.user_id)).Nodup)
    (hd : ∀ m ∈ s.messages, m.day ≤ today) :
    s.get_stats today =
      { total_users := (s.users.map (fun u => u.user_id)).dedup.length,
        total_messages := s.messages.length,
        user_messages := (s.messages.filter (fun m => m.role == "user")).length,
        active_today :=
          ((s.messages.filter (fun m => m.day == today)).map
            (fun m => m.user_id)).dedup.length } := by
  unfold SQLiteDialogHistory.get_stats
  have hcong : ∀ m ∈ s.messages, (decide (today ≤ m.day)) = (m.day == today) := by
    intro m hm
    have hle := hd m hm
    rw [Bool.eq_iff_iff]
    simp only [decide_eq_true_eq, beq_iff_eq]
    omega
  rw [List.filter_congr hcong, List.Nodup.dedup hu, List.length_map]

theorem c8_get_stats_witness :
    (((((((((SQLiteDialogHistory.init 20).upsert_user 9 1 none).upsert_user 9 2
        none).add_message 9 2 "user" "hey").add_message 9 2 "assistant"
        "hi").add_message 10 1 "user" "q1").add_message 10 1 "assistant"
        "a1").add_message 10 1 "user" "q2").users.map (fun u => u.user_id)).Nodup
    ∧ (∀ m ∈ ((((((((SQLiteDialogHistory.init 20).upsert_user 9 1 none).upsert_user 9 2
        none).add_message 9 2 "user" "hey").add_message 9 2 "assistant"
        "hi").add_message 10 1 "user" "q1").add_message 10 1 "assistant"
        "a1").add_message 10 1 "user" "q2").messages, m.day ≤ 10)
    ∧ ((((((((SQLiteDialogHistory.init 20).upsert_user 9 1 none).upsert_user 9 2
        none).add_message 9 2 "user" "hey").add_message 9 2 "assistant"
        "hi").add_message 10 1 "user" "q1").add_message 10 1 "assistant"
        "a1").add_message 10 1 "user" "q2").get_stats 10
      = { total_users := 2, total_messages := 5, user_messages := 3,
          active_today := 1 } := by
  refine ⟨by decide, by decide, ?_⟩
  exact (c8_get_stats ((((((((SQLiteDialogHistory.init 20).upsert_user 9 1
    none).upsert_user 9 2 none).add_message 9 2 "user" "hey").add_message 9 2
    "assistant" "hi").add_message 10 1 "user" "q1").add_message 10 1 "assistant"
    "a1").add_message 10 1 "user" "q2") 10 (by decide) (by decide)).trans (by decide)

/-- C10 (amended): for max_messages at least 1, the SQLite-backed store and
the in-memory store are observably equivalent on the shared core
interface: after any same sequence of add_message and clear calls, every
get_history and get_message_count query returns identical results. -/
theorem c10_refinement (maxM : Nat) (hmax : 1 ≤ maxM) (ops : List Op) (uid : Nat) :
    ((SQLiteDialogHistory.init maxM).runOps ops).get_history uid
      = ((DialogHistory.init maxM).runOps ops).get_history uid
    ∧ ((SQLiteDialogHistory.init maxM).runOps ops).get_message_count uid
      = ((DialogHistory.init maxM).runOps ops).get_message_count uid := by
  have hsim := runOps_sim ops (SQLiteDialogHistory.init maxM) (DialogHistory.init maxM)
    (init_WF maxM) rfl hmax (fun u => rfl)
  obtain ⟨hwf, hm1, hm2, hR⟩ := hsim
  constructor
  · rw [SQLiteDialogHistory.get_history_eq_userRows hwf uid, DialogHistory.get_history_eq]
    exact hR uid
  · rw [SQLiteDialogHistory.get_message_count_eq]
    have hlen := congrArg List.length (hR uid)
    rw [List.length_map, List.length_map] at hlen
    exact hlen

theorem c10_refinement_witness :
    1 ≤ 3
    ∧ ((SQLiteDialogHistory.init 3).runOps
        [Op.add 1 42 "user" "a", Op.add 2 42 "assistant" "b", Op.clearOp 42,
         Op.add 3 42 "user" "c", Op.add 4 42 "assistant" "d"]).get_history 42
      = ((DialogHistory.init 3).runOps
        [Op.add 1 42 "user" "a", Op.add 2 42 "assistant" "b", Op.clearOp 42,
         Op.add 3 42 "user" "c", Op.add 4 42 "assistant" "d"]).get_history 42
    ∧ ((SQLiteDialogHistory.init 3).runOps
        [Op.add 1 42 "user" "a", Op.add 2 42 "assistant" "b", Op.clearOp 42,
         Op.add 3 42 "user" "c", Op.add 4 42 "assistant" "d"]).get_message_count 42
      = ((DialogHistory.init 3).runOps
        [Op.add 1 42 "user" "a", Op.add 2 42 "assistant" "b", Op.clearOp 42,
         Op.add 3 42 "user" "c", Op.add 4 42 "assistant" "d"]).get_message_count 42 := by
  have h := c10_refinement 3 (by decide)
    [Op.add 1 42 "user" "a", Op.add 2 42 "assistant" "b", Op.clearOp 42,
     Op.add 3 42 "user" "c", Op.add 4 42 "assistant" "d"] 42
  exact ⟨by decide, h.1, h.2⟩

/-- C10 counterexample: with max_messages = 0 the two implementations
disagree after a single add_message — the SQLite trim deletes everything
(LIMIT 0 keeps no ids) while the in-memory slice keeps everything. -/
theorem c10_counterexample :
    ¬ (((SQLiteDialogHistory.init 0).runOps [Op.add 0 1 "user" "hi"]).get_message_count 1
        = ((DialogHistory.init 0).runOps [Op.add 0 1 "user" "hi"]).get_message_count 1) := by
  decide

end VanilkaStore

